import Mathlib

/-!
Verification of the Garmin Connect data-processing core
(`src/streamlit_dashboard.py`, class GarminDataAnalyzer and
`create_correlation_analysis`).

The embedding is a shallow one: pandas Series/DataFrames become Lean lists,
cells that may be NaN/None become `Option`, numeric cells are exact
rationals, and the calendar-date key extracted by `.dt.date` is a `Nat`
day identifier.  A pandas column that may be absent from a DataFrame is
modelled by an explicit presence flag, mirroring the source's
`if 'col' in df.columns` branches.
-/

namespace Garmin

/-! ## Timestamp normalizer (`safe_parse_timestamp`, lines 111-140)

A raw cell of the input column is either null, a number, a numeric string
(both coerce under `pd.to_numeric(..., errors='coerce')`), or a
non-numeric string.  Generic `pd.to_datetime` string parsing is outside
what we can re-implement, so each string constructor carries the result
that pandas' generic parser would give for it (`none` = NaT); a plain
number under the generic parser is read in pandas' default nanosecond
unit.  Output timestamps are rational numbers of seconds since epoch. -/

inductive Raw where
  | null : Raw
  | num (q : ℚ) : Raw
  | numStr (q : ℚ) (gen : Option ℚ) : Raw
  | dateStr (gen : Option ℚ) : Raw
deriving DecidableEq

/-- `pandas.isna` on a cell: true only for the null cell. -/
def isNa : Raw → Bool
  | .null => true
  | _ => false

/-- `pd.to_numeric(series, errors='coerce')` on one cell. -/
def toNumeric : Raw → Option ℚ
  | .num q => some q
  | .numStr q _ => some q
  | .null => none
  | .dateStr _ => none

/-- `pd.to_datetime(series, errors='coerce')` (no unit argument) on one
cell: null stays NaT, a plain number is read as nanoseconds since epoch,
a string yields whatever the generic parser gives (carried on the
constructor). -/
def genericParse : Raw → Option ℚ
  | .null => none
  | .num q => some (q / 1000000000)
  | .numStr _ gen => gen
  | .dateStr gen => gen

/-- `max` of two possibly-missing values, skipping the missing ones
(the NaN-skipping behaviour of `Series.max`). -/
def optMax : Option ℚ → Option ℚ → Option ℚ
  | none, b => b
  | some a, none => some a
  | some a, some b => some (max a b)

/-- `numeric_series.max()`: maximum over the non-NaN cells, `none` when
every cell is NaN. -/
def seriesMax (l : List (Option ℚ)) : Option ℚ :=
  l.foldl optMax none

/-- `safe_parse_timestamp` (lines 111-140): all-null columns pass
through; otherwise coerce to numeric and classify by the observed
maximum (`> 1e12` means milliseconds, else `> 1e9` means seconds);
otherwise fall back to generic string parsing. -/
def safe_parse_timestamp (col : List Raw) : List (Option ℚ) :=
  if col.all isNa then
    col.map genericParse
  else
    let numeric := col.map toNumeric
    match seriesMax numeric with
    | none => col.map genericParse
    | some m =>
      if m > 1000000000000 then
        numeric.map (Option.map (fun v => v / 1000))
      else if m > 1000000000 then
        numeric
      else
        col.map genericParse

theorem seriesMax_eq_none_of_all_none (l : List (Option ℚ))
    (h : ∀ x ∈ l, x = none) : seriesMax l = none := by
  induction l with
  | nil => rfl
  | cons a t ih =>
    have ha : a = none := h a (by simp)
    subst ha
    exact ih (fun x hx => h x (by simp [hx]))

theorem not_all_isNa_of_seriesMax (col : List Raw) (m : ℚ)
    (h : seriesMax (col.map toNumeric) = some m) : col.all isNa = false := by
  by_contra hc
  have hall : col.all isNa = true := by
    cases hb : col.all isNa with
    | true => rfl
    | false => exact absurd hb hc
  have : seriesMax (col.map toNumeric) = none := by
    apply seriesMax_eq_none_of_all_none
    intro x hx
    rcases List.mem_map.1 hx with ⟨r, hr, hrx⟩
    have := List.all_eq_true.1 hall r hr
    cases r with
    | null => simpa using hrx.symm
    | num q => simp [isNa] at this
    | numStr q g => simp [isNa] at this
    | dateStr g => simp [isNa] at this
  rw [this] at h
  exact Option.noConfusion h

/-- C3: for every input column of the timestamp normalizer in which at
least one value coerces to a number (observed maximum `m`): if
`m > 1e12` every cell is read as milliseconds since epoch (output is the
coerced value divided by 1000, null for cells that did not coerce); if
`1e9 < m ≤ 1e12` every cell is read as seconds since epoch; if
`m ≤ 1e9` the column falls through to generic calendar/time string
parsing, under which any cell failing every step is null. -/
theorem safe_parse_timestamp_magnitude_classification
    (col : List Raw) (m : ℚ) (v : Raw) (i : Nat)
    (hm : seriesMax (col.map toNumeric) = some m)
    (hv : col[i]? = some v) :
    (1000000000000 < m →
      (safe_parse_timestamp col)[i]? =
        some ((toNumeric v).map (fun t => t / 1000)))
    ∧ (1000000000 < m → m ≤ 1000000000000 →
      (safe_parse_timestamp col)[i]? = some (toNumeric v))
    ∧ (m ≤ 1000000000 →
      (safe_parse_timestamp col)[i]? = some (genericParse v)) := by
  have hna := not_all_isNa_of_seriesMax col m hm
  refine ⟨?_, ?_, ?_⟩
  · intro h1
    simp only [safe_parse_timestamp, hna, Bool.false_eq_true, if_false, hm]
    rw [if_pos h1, List.getElem?_map, List.getElem?_map, hv]
    rfl
  · intro h1 h2
    simp only [safe_parse_timestamp, hna, Bool.false_eq_true, if_false, hm]
    rw [if_neg (not_lt.2 h2), if_pos h1, List.getElem?_map, hv]
    rfl
  · intro h1
    simp only [safe_parse_timestamp, hna, Bool.false_eq_true, if_false, hm]
    rw [if_neg (not_lt.2 (h1.trans (by norm_num))), if_neg (not_lt.2 h1),
      List.getElem?_map, hv]
    rfl

/-- Witness for C3: a column whose maximum coerced value is
2·10¹², read as milliseconds, so the cell 2·10¹² becomes the timestamp
2·10⁹ seconds since epoch and the null cell stays null. -/
theorem safe_parse_timestamp_magnitude_classification_witness :
    (safe_parse_timestamp [Raw.num 2000000000000, Raw.null])[0]? =
      some (some 2000000000) ∧
    (safe_parse_timestamp [Raw.num 2000000000000, Raw.null])[1]? =
      some none := by
  constructor
  · have h := (safe_parse_timestamp_magnitude_classification
      [Raw.num 2000000000000, Raw.null] 2000000000000
      (Raw.num 2000000000000) 0 rfl rfl).1 (by norm_num)
    rw [h]
    norm_num [toNumeric]
  · have h := (safe_parse_timestamp_magnitude_classification
      [Raw.num 2000000000000, Raw.null] 2000000000000
      Raw.null 1 rfl rfl).1 (by norm_num)
    rw [h]
    rfl

/-! ## Activities loader (`load_activities`, lines 142-259)

A raw activity record as it appears in `summarizedActivitiesExport`.
Only the fields touched by the claims are modelled; `Option` marks a
field that a given record may lack (a pandas cell that is NaN when the
column exists for other records). -/

structure RawAct where
  activityId : Option Nat
  elapsedDuration : Option ℚ
  duration : Option ℚ
  distance : Option ℚ
  bmrCalories : Option ℚ
  calories : Option ℚ
  avgHr : Option ℚ
deriving DecidableEq

/-- Lines 194-202: `duration_minutes` prefers `elapsedDuration` over
`duration` (both in milliseconds, nulls filled with 0, divided by 1000
then by 60); with neither column present the derived column is 0.  The
`has` flags mirror `if 'elapsedDuration' in df.columns` and
`elif 'duration' in df.columns`. -/
def duration_minutes (hasElapsed hasDuration : Bool)
    (elapsed duration : Option ℚ) : ℚ :=
  if hasElapsed then elapsed.getD 0 / 1000 / 60
  else if hasDuration then duration.getD 0 / 1000 / 60
  else 0

/-- Lines 206-211: `distance_km` from the raw centimeter value, nulls
filled with 0, divided by 100 (meters) then by 1000 (kilometers). -/
def distance_km (hasDistance : Bool) (distance : Option ℚ) : ℚ :=
  if hasDistance then distance.getD 0 / 100 / 1000 else 0

/-- Lines 216-223: `activeCalories` is the `bmrCalories` column filled
with 0 when that column exists, else the `calories` column filled with
0, else 0.  The flags mirror the column-presence tests. -/
def activeCalories (hasBmr hasCal : Bool) (bmr cal : Option ℚ) : ℚ :=
  if hasBmr then bmr.getD 0
  else if hasCal then cal.getD 0
  else 0

/-- A pandas DataFrame built from a list of records has a column exactly
when some record carries the field. -/
def hasColumn (rows : List RawAct) (f : RawAct → Option ℚ) : Bool :=
  rows.any fun r => (f r).isSome

/-- The derived `activeCalories` column over a whole batch of records:
column presence is decided once for the batch, then every record is
filled the same way (lines 216-223 operate on whole columns). -/
def activeCaloriesCol (rows : List RawAct) : List ℚ :=
  rows.map fun r =>
    activeCalories (hasColumn rows (fun x => x.bmrCalories))
      (hasColumn rows (fun x => x.calories)) r.bmrCalories r.calories

/-- C8: duration raw values (milliseconds) are divided by 1000 and then
by 60, distance raw values (centimeters) by 100 and then by 1000; in
particular raw distance 500000 gives exactly 5.0 km and raw duration
3600000 gives exactly 60.0 minutes. -/
theorem duration_distance_conversion :
    (∀ q : ℚ, ∀ d : Option ℚ,
      duration_minutes true true (some q) d = q / 1000 / 60) ∧
    (∀ q : ℚ, distance_km true (some q) = q / 100 / 1000) ∧
    distance_km true (some 500000) = 5 ∧
    (∀ d : Option ℚ, duration_minutes true true (some 3600000) d = 60) := by
  refine ⟨fun q d => rfl, fun q => rfl, by norm_num [distance_km],
    fun d => by norm_num [duration_minutes]⟩

/-- Counterexample to C5 as stated: in a batch whose first record has
both calorie fields and whose second record has only the nominal
`calories` field (value 300), the second record's derived
active-calories is 0, not 300 — column presence is decided per batch,
so the existing `bmrCalories` column makes the second record's null bmr
value be filled with 0 instead of falling back to its nominal
calories. -/
theorem activeCalories_batch_counterexample :
    activeCaloriesCol
      [⟨some 1, none, none, none, some 100, some 200, none⟩,
       ⟨some 2, none, none, none, none, some 300, none⟩] = [100, 0] ∧
    (0 : ℚ) ≠ 300 := by
  constructor
  · rfl
  · norm_num

/-- C5 amended: column presence is per batch.  If any record of the
batch has `bmrCalories`, every record's active-calories equals its own
bmr value with null defaulted to 0 — never its nominal `calories` value
when the two differ; if no record has `bmrCalories` but some record has
`calories`, each record's active-calories is its nominal calories with
null defaulted to 0; if neither column exists, it is 0. -/
theorem activeCalories_prefers_bmr (rows : List RawAct) (r : RawAct)
    (_hr : r ∈ rows) :
    (hasColumn rows (fun x => x.bmrCalories) = true →
      activeCalories (hasColumn rows (fun x => x.bmrCalories))
        (hasColumn rows (fun x => x.calories)) r.bmrCalories r.calories =
        r.bmrCalories.getD 0 ∧
      (∀ b c : ℚ, r.bmrCalories = some b → r.calories = some c → b ≠ c →
        activeCalories (hasColumn rows (fun x => x.bmrCalories))
          (hasColumn rows (fun x => x.calories)) r.bmrCalories r.calories ≠ c))
    ∧ (hasColumn rows (fun x => x.bmrCalories) = false →
        hasColumn rows (fun x => x.calories) = true →
      activeCalories (hasColumn rows (fun x => x.bmrCalories))
        (hasColumn rows (fun x => x.calories)) r.bmrCalories r.calories =
        r.calories.getD 0)
    ∧ (hasColumn rows (fun x => x.bmrCalories) = false →
        hasColumn rows (fun x => x.calories) = false →
      activeCalories (hasColumn rows (fun x => x.bmrCalories))
        (hasColumn rows (fun x => x.calories)) r.bmrCalories r.calories = 0) := by
  refine ⟨fun hb => ⟨?_, ?_⟩, fun hb hc => ?_, fun hb hc => ?_⟩
  · simp [activeCalories, hb]
  · intro b c hrb hrc hbc
    simp [activeCalories, hb, hrb, hrc]
    exact hbc
  · simp [activeCalories, hb, hc]
  · simp [activeCalories, hb, hc]

/-- Witness for C5 (amended): in a batch where both columns exist, a
record with bmr 100 and nominal calories 200 gets active-calories 100,
which differs from 200. -/
theorem activeCalories_prefers_bmr_witness :
    activeCalories
      (hasColumn [(⟨some 1, none, none, none, some 100, some 200, none⟩ : RawAct)]
        (fun x => x.bmrCalories))
      (hasColumn [(⟨some 1, none, none, none, some 100, some 200, none⟩ : RawAct)]
        (fun x => x.calories))
      (some 100) (some 200) = 100 ∧
    (100 : ℚ) ≠ 200 := by
  have h := (activeCalories_prefers_bmr
    [⟨some 1, none, none, none, some 100, some 200, none⟩]
    ⟨some 1, none, none, none, some 100, some 200, none⟩ (by simp)).1 rfl
  exact ⟨h.1, by norm_num⟩

/-! ## Sleep loader (`load_sleep`, lines 261-370) -/

/-- A raw per-night sleep record.  `calendarDate` is `none` when
`pd.to_datetime(..., errors='coerce')` could not resolve the date (such
rows are dropped at line 318). -/
structure RawSleep where
  calendarDate : Option Nat
  deepSleepSeconds : Option ℚ
  lightSleepSeconds : Option ℚ
  remSleepSeconds : Option ℚ
  awakeSleepSeconds : Option ℚ
  awakeCount : Option ℚ
deriving DecidableEq

/-- Column-presence flags for the four stage-duration columns
(lines 295-313 test each with `if 'xSleepSeconds' in df.columns`). -/
structure SleepFlags where
  hasDeep : Bool
  hasLight : Bool
  hasRem : Bool
  hasAwake : Bool
deriving DecidableEq

/-- One stage-duration column in hours: seconds filled with 0 and
divided by 3600 when the column exists, constant 0 otherwise. -/
def sleepHours (has : Bool) (secs : Option ℚ) : ℚ :=
  if has then secs.getD 0 / 3600 else 0

/-- A normalized sleep row after the loader ran. -/
structure SleepRow where
  calendarDate : Nat
  deepSleepHours : ℚ
  lightSleepHours : ℚ
  remSleepHours : ℚ
  awakeHours : ℚ
  totalSleepHours : ℚ
  awakeCount : ℚ
deriving DecidableEq

/-- The per-record effect of lines 294-318: derive the four hour
columns, `totalSleepHours = deep + light + rem` (line 315, awake
excluded), fill `awakeCount` with 0, and drop the record when its
calendar date did not resolve. -/
def sleepRowOf (fl : SleepFlags) (r : RawSleep) : Option SleepRow :=
  r.calendarDate.map fun d =>
    let deep := sleepHours fl.hasDeep r.deepSleepSeconds
    let light := sleepHours fl.hasLight r.lightSleepSeconds
    let rem := sleepHours fl.hasRem r.remSleepSeconds
    let awake := sleepHours fl.hasAwake r.awakeSleepSeconds
    { calendarDate := d
      deepSleepHours := deep
      lightSleepHours := light
      remSleepHours := rem
      awakeHours := awake
      totalSleepHours := deep + light + rem
      awakeCount := r.awakeCount.getD 0 }

/-- The Sleep loader over a whole batch: rows with unresolvable dates
are dropped. -/
def load_sleep_rows (fl : SleepFlags) (rs : List RawSleep) : List SleepRow :=
  rs.filterMap (sleepRowOf fl)

/-- C6: each sleep-stage second-duration is divided by 3600 into hours
(missing values defaulting to 0), and `totalSleepHours` is
deep + light + rem hours with awake time excluded; deep = 1h,
light = 2h, rem = 1h, awake = 0.5h gives total exactly 4.0. -/
theorem sleep_hours_total_excludes_awake (fl : SleepFlags) (r : RawSleep)
    (row : SleepRow) (hfl : fl = ⟨true, true, true, true⟩)
    (hrow : sleepRowOf fl r = some row) :
    row.deepSleepHours = r.deepSleepSeconds.getD 0 / 3600 ∧
    row.lightSleepHours = r.lightSleepSeconds.getD 0 / 3600 ∧
    row.remSleepHours = r.remSleepSeconds.getD 0 / 3600 ∧
    row.awakeHours = r.awakeSleepSeconds.getD 0 / 3600 ∧
    row.totalSleepHours =
      row.deepSleepHours + row.lightSleepHours + row.remSleepHours := by
  subst hfl
  cases hd : r.calendarDate with
  | none => simp [sleepRowOf, hd] at hrow
  | some d =>
    simp only [sleepRowOf, hd, Option.map_some] at hrow
    cases hrow
    simp [sleepHours]

/-- Witness for C6: the spec's example night (deep 3600s, light 7200s,
rem 3600s, awake 1800s) yields totalSleepHours exactly 4, with awake
hours 1/2 excluded from the total. -/
theorem sleep_hours_total_excludes_awake_witness :
    ∃ row : SleepRow,
      sleepRowOf ⟨true, true, true, true⟩
        ⟨some 7, some 3600, some 7200, some 3600, some 1800, some 2⟩ =
        some row ∧
      row.totalSleepHours = 4 ∧ row.awakeHours = 1 / 2 := by
  refine ⟨_, rfl, ?_⟩
  have h := sleep_hours_total_excludes_awake ⟨true, true, true, true⟩
    ⟨some 7, some 3600, some 7200, some 3600, some 1800, some 2⟩ _ rfl rfl
  rw [h.2.2.2.2, h.1, h.2.1, h.2.2.1, h.2.2.2.1]
  norm_num

/-! ## Health-Status loader (`load_health`, lines 372-431)

Each record carries a variable-length list of named metrics; flattening
(lines 389-408) turns each metric of type `t` into the five dictionary
keys `t_value`, `t_baseline_upper`, `t_baseline_lower`, `t_percentage`
and `t_status`, and `pd.DataFrame` over the per-record dictionaries
makes the column set the union of the keys across the batch, with NaN
for a record that lacks a key. -/

structure Metric where
  type : Option String
  value : Option ℚ
  baselineUpperLimit : Option ℚ
  baselineLowerLimit : Option ℚ
  percentage : Option ℚ
  metricStatus : Option String
deriving DecidableEq

structure HealthRecord where
  calendarDate : Option Nat
  metrics : List Metric
deriving DecidableEq

/-- `metric.get('type', 'unknown')` is modelled by
`metric.get('type') or fallback`: a metric without a type flattens under
the name "unknown" (line 401). -/
def metricType (m : Metric) : String :=
  m.type.getD "unknown"

/-- The five cells a metric of some type contributes to its row. -/
structure MetricCells where
  value : Option ℚ
  baseline_upper : Option ℚ
  baseline_lower : Option ℚ
  percentage : Option ℚ
  cellStatus : Option String
deriving DecidableEq

/-- The cells record `r` holds for metric type `t`: the five dictionary
assignments of lines 402-406 mean the last metric of type `t` in the
record's list wins, and a record with no metric of type `t` leaves all
five cells missing (NaN). -/
def recordCells (r : HealthRecord) (t : String) : Option MetricCells :=
  match (r.metrics.filter fun m => metricType m == t).getLast? with
  | none => none
  | some m => some ⟨m.value, m.baselineUpperLimit, m.baselineLowerLimit,
      m.percentage, m.metricStatus⟩

/-- The set of metric types observed anywhere in the batch; the
flattened DataFrame has the five columns for exactly these types. -/
def batchTypes (rs : List HealthRecord) : List String :=
  (rs.flatMap fun r => r.metrics.map metricType).dedup

/-- The flattened batch before date filtering: one output row per
record, whose metric columns are exactly the batch's types. -/
def flattenHealth (rs : List HealthRecord) :
    List (Option Nat × List (String × Option MetricCells)) :=
  rs.map fun r => (r.calendarDate, (batchTypes rs).map fun t => (t, recordCells r t))

/-- `load_health`: flatten, then drop the rows whose calendar date did
not resolve (line 414). -/
def load_health (rs : List HealthRecord) :
    List (Option Nat × List (String × Option MetricCells)) :=
  (flattenHealth rs).filter fun row => row.1.isSome

/-- C7: for every batch and every metric type `t` observed in some
record of the batch, every output row carries the columns for `t`
(every row's column list is exactly the batch-wide union of observed
types), the row of each record holds that record's cells for `t`, and a
record with no metric of type `t` has all of those cells null. -/
theorem health_schema_is_batch_union (rs : List HealthRecord) (t : String)
    (r : HealthRecord) (ht : t ∈ batchTypes rs) (hr : r ∈ rs) :
    (∀ row ∈ load_health rs, row.2.map Prod.fst = batchTypes rs) ∧
    (r.calendarDate, (batchTypes rs).map fun u => (u, recordCells r u)) ∈
      flattenHealth rs ∧
    (t, recordCells r t) ∈ ((batchTypes rs).map fun u => (u, recordCells r u)) ∧
    ((∀ m ∈ r.metrics, metricType m ≠ t) → recordCells r t = none) := by
  refine ⟨?_, ?_, ?_, ?_⟩
  · intro row hrow
    have hrow' : row ∈ flattenHealth rs := List.mem_of_mem_filter hrow
    rcases List.mem_map.1 hrow' with ⟨x, _, hx⟩
    subst hx
    simp [List.map_map, Function.comp_def]
  · exact List.mem_map.2 ⟨r, hr, rfl⟩
  · exact List.mem_map.2 ⟨t, ht, rfl⟩
  · intro hnone
    have : (r.metrics.filter fun m => metricType m == t) = [] := by
      apply List.filter_eq_nil_iff.2
      intro m hm
      simpa using hnone m hm
    simp [recordCells, this]

/-- Witness for C7: a batch of two records, the first with a metric of
type HRV, the second with none; both output rows carry the HRV columns
and the second record's HRV cells are null. -/
theorem health_schema_is_batch_union_witness :
    (∀ row ∈ load_health
        [⟨some 1, [⟨some "HRV", some 42, none, none, none, none⟩]⟩,
         ⟨some 2, []⟩],
      row.2.map Prod.fst =
        batchTypes
          [⟨some 1, [⟨some "HRV", some 42, none, none, none, none⟩]⟩,
           ⟨some 2, []⟩]) ∧
    recordCells ⟨some 2, []⟩ "HRV" = none := by
  have h := health_schema_is_batch_union
    [⟨some 1, [⟨some "HRV", some 42, none, none, none, none⟩]⟩, ⟨some 2, []⟩]
    "HRV" ⟨some 2, []⟩ (by simp [batchTypes, metricType]) (by simp)
  exact ⟨h.1, h.2.2.2 (by simp)⟩

/-! ## File selection per domain (C10)

`find_files` returns the matching paths in order.  A file's parsed
content is modelled as its record list (for activities, the
`data[0]['summarizedActivitiesExport']` list of the file).
`load_activities` (lines 145-152) opens only `files[0]`;
`load_sleep` (lines 264-272) and `load_health` (lines 375-383) loop
over every matching file and `extend` one combined record list. -/

def activities_source_records (files : List (List RawAct)) :
    Option (List RawAct) :=
  match files with
  | [] => none
  | f :: _ => some f

def sleep_source_records (files : List (List RawSleep)) :
    Option (List RawSleep) :=
  if files.isEmpty then none else some files.flatten

def health_source_records (files : List (List HealthRecord)) :
    Option (List HealthRecord) :=
  if files.isEmpty then none else some files.flatten

/-- C10: when several files match, the Activities loader reads only the
first matching file — its record set does not depend on the remaining
files at all — while the Sleep and Health-Status loaders concatenate
the records of every matching file. -/
theorem activities_reads_first_file_only
    (f : List RawAct) (rest : List (List RawAct))
    (s : List RawSleep) (srest : List (List RawSleep))
    (h : List HealthRecord) (hrest : List (List HealthRecord)) :
    activities_source_records (f :: rest) = some f ∧
    sleep_source_records (s :: srest) = some (s ++ srest.flatten) ∧
    health_source_records (h :: hrest) = some (h ++ hrest.flatten) := by
  refine ⟨rfl, ?_, ?_⟩ <;> simp [sleep_source_records, health_source_records]

/-! ## Cross-domain merger (`create_correlation_analysis`, lines 1994-2065)

The Activities table reaching the merger, after `load_activities` ran:
every row has a resolved `date`, the derived numeric columns exist and
are null-free (the loader filled them), `avgHr` was filled at
lines 225-228, and `averageHR` is a raw column that exists only when
some raw record carried that exact field — the loader itself never
creates it, which is what the table-level `hasAverageHR` flag records
(the merger tests `if 'averageHR' in activities_df.columns`,
line 2006). -/

structure ActRow where
  date : Nat
  activityId : Option Nat
  distance_km : ℚ
  activeCalories : ℚ
  duration_minutes : ℚ
  avgHr : ℚ
  averageHR : Option ℚ
deriving DecidableEq

structure ActTable where
  hasAverageHR : Bool
  rows : List ActRow
deriving DecidableEq

/-- `Series.mean()` over one groupby group: pandas skips NaN cells and
returns NaN when nothing remains. -/
def groupMean (l : List ℚ) : Option ℚ :=
  if l.isEmpty then none else some (l.sum / l.length)

/-- One row of `activities_daily` (lines 1998-2016): count of non-null
activityId cells, sums of distance, calories and duration, and — only
when the `averageHR` column exists — the group mean of its non-null
cells. -/
structure DailyRow where
  date : Nat
  num_activities : Nat
  distance : ℚ
  calories : ℚ
  duration : ℚ
  avg_hr : Option ℚ
deriving DecidableEq

def aggDate (t : ActTable) (d : Nat) : DailyRow :=
  let g := t.rows.filter fun r => r.date == d
  { date := d
    num_activities := (g.filter fun r => r.activityId.isSome).length
    distance := (g.map fun r => r.distance_km).sum
    calories := (g.map fun r => r.activeCalories).sum
    duration := (g.map fun r => r.duration_minutes).sum
    avg_hr :=
      if t.hasAverageHR then groupMean (g.filterMap fun r => r.averageHR)
      else none }

/-- `activities_df.groupby('date').agg(...)` (line 2009): one output
row per distinct date.  (pandas emits the groups in sorted key order;
we keep first-occurrence order, which no claim observes.) -/
def activities_daily (t : ActTable) : List DailyRow :=
  (t.rows.map fun r => r.date).dedup.map (aggDate t)

/-- Counterexample to C1 as stated: an Activities table whose raw data
had no `averageHR` column (the loader only guarantees `avgHr`,
lines 225-228, but the merger tests for `averageHR`, line 2006).  The
single activity of the date has loader heart rate `avgHr = 150`, so the
claimed mean heart rate of the date is 150, yet the aggregated row
carries no heart-rate value at all. -/
theorem activities_daily_mean_hr_counterexample :
    (activities_daily ⟨false, [⟨1, some 1, 5, 100, 60, 150, none⟩]⟩).map
      (fun r => r.avg_hr) = [none] ∧
    groupMean [150] = some 150 ∧ (none : Option ℚ) ≠ some 150 := by
  refine ⟨rfl, ?_, by simp⟩
  simp [groupMean]

/-- C1 amended: for every non-empty Activities table the merger
aggregates to exactly one row per calendar date (the date keys are
duplicate-free and are exactly the table's dates), each row holding the
count of that date's non-null activityId cells, the sums of distance,
calories and duration, and — only when the table has an `averageHR`
column — the mean of that date's non-null `averageHR` values; with no
such column the aggregated row carries no heart-rate value. -/
theorem activities_daily_one_row_per_date (t : ActTable)
    (_hne : t.rows ≠ []) :
    ((activities_daily t).map fun r => r.date).Nodup ∧
    (∀ d, (d ∈ (activities_daily t).map fun r => r.date) ↔
      d ∈ t.rows.map fun r => r.date) ∧
    (∀ p ∈ activities_daily t,
      p.num_activities = (((t.rows.filter fun r => r.date == p.date).filter
        fun r => r.activityId.isSome)).length ∧
      p.distance =
        ((t.rows.filter fun r => r.date == p.date).map
          fun r => r.distance_km).sum ∧
      p.calories =
        ((t.rows.filter fun r => r.date == p.date).map
          fun r => r.activeCalories).sum ∧
      p.duration =
        ((t.rows.filter fun r => r.date == p.date).map
          fun r => r.duration_minutes).sum ∧
      p.avg_hr = (if t.hasAverageHR then
        groupMean ((t.rows.filter fun r => r.date == p.date).filterMap
          fun r => r.averageHR)
        else none)) := by
  have hdates : ((activities_daily t).map fun r => r.date) =
      (t.rows.map fun r => r.date).dedup := by
    simp [activities_daily, List.map_map, Function.comp_def, aggDate]
  refine ⟨?_, ?_, ?_⟩
  · rw [hdates]; exact List.nodup_dedup _
  · intro d; rw [hdates]; exact List.mem_dedup
  · intro p hp
    rcases List.mem_map.1 hp with ⟨d, _, rfl⟩
    exact ⟨rfl, rfl, rfl, rfl, rfl⟩

/-- Witness for C1 (amended): a two-activity table on one date with an
`averageHR` column aggregates to duplicate-free dates. -/
theorem activities_daily_one_row_per_date_witness :
    ((activities_daily ⟨true,
      [⟨1, some 1, 5, 100, 60, 150, some 140⟩,
       ⟨1, some 2, 3, 50, 30, 130, some 120⟩]⟩).map fun r => r.date).Nodup ∧
    (activities_daily ⟨true,
      [⟨1, some 1, 5, 100, 60, 150, some 140⟩,
       ⟨1, some 2, 3, 50, 30, 130, some 120⟩]⟩).length = 1 := by
  refine ⟨(activities_daily_one_row_per_date _ (by simp)).1, rfl⟩

/-! ### The outer join on the date key -/


/-- The rows one left row `p` contributes to the outer merge: one row
per right row sharing `p`'s date, or a single row with a null right
part when there is none. -/
def joinRows {α β : Type} (R : List (Nat × β)) (p : Nat × α) :
    List (Nat × Option α × Option β) :=
  let ms := R.filter fun q => q.1 == p.1
  if ms.isEmpty then [(p.1, some p.2, none)]
  else ms.map fun q => (p.1, some p.2, some q.2)

/-- `pd.merge(L, R, on='date', how='outer')` over date-keyed rows: each
left row pairs with every right row sharing its date (or with a null
right part when there is none), then the right rows whose date never
occurs on the left are appended with a null left part. -/
def outerJoin {α β : Type} (L : List (Nat × α)) (R : List (Nat × β)) :
    List (Nat × Option α × Option β) :=
  L.flatMap (joinRows R) ++
  ((R.filter fun q => !(L.any fun p => p.1 == q.1)).map
    fun q => (q.1, none, some q.2))

/-- The date-key column of a keyed table. -/
def keysOf {α : Type} (l : List (Nat × α)) : List Nat := l.map Prod.fst

theorem joinRows_key {α β : Type} (R : List (Nat × β)) (p : Nat × α)
    (row : Nat × Option α × Option β) (h : row ∈ joinRows R p) :
    row.1 = p.1 := by
  unfold joinRows at h
  by_cases he : ((R.filter fun q => q.1 == p.1).isEmpty : Prop)
  · rw [if_pos he] at h
    rw [List.mem_singleton.1 h]
  · rw [if_neg he] at h
    rcases List.mem_map.1 h with ⟨q, _, rfl⟩
    rfl

theorem joinRows_ne_nil {α β : Type} (R : List (Nat × β)) (p : Nat × α) :
    joinRows R p ≠ [] := by
  unfold joinRows
  by_cases he : ((R.filter fun q => q.1 == p.1).isEmpty : Prop)
  · rw [if_pos he]; simp
  · rw [if_neg he]
    intro hc
    rw [List.map_eq_nil_iff] at hc
    rw [hc] at he
    exact he rfl

theorem keysOf_outerJoin_mem {α β : Type}
    (L : List (Nat × α)) (R : List (Nat × β)) (d : Nat) :
    d ∈ keysOf (outerJoin L R) ↔ d ∈ keysOf L ∨ d ∈ keysOf R := by
  constructor
  · intro hd
    rcases List.mem_map.1 hd with ⟨row, hrow, hkey⟩
    rcases List.mem_append.1 hrow with hL | hR
    · rcases List.mem_flatMap.1 hL with ⟨p, hp, hrowp⟩
      left
      rw [← hkey, joinRows_key R p row hrowp]
      exact List.mem_map.2 ⟨p, hp, rfl⟩
    · rcases List.mem_map.1 hR with ⟨q, hq, hrowq⟩
      right
      rw [← hkey, ← hrowq]
      exact List.mem_map.2 ⟨q, List.mem_of_mem_filter hq, rfl⟩
  · intro hd
    rcases hd with hL | hR
    · rcases List.mem_map.1 hL with ⟨p, hp, hkey⟩
      rcases List.exists_mem_of_ne_nil _ (joinRows_ne_nil R p) with ⟨row, hrow⟩
      apply List.mem_map.2
      exact ⟨row, List.mem_append_left _ (List.mem_flatMap.2 ⟨p, hp, hrow⟩),
        by rw [joinRows_key R p row hrow, hkey]⟩
    · rcases List.mem_map.1 hR with ⟨q, hq, hkey⟩
      by_cases ha : ((L.any fun p => p.1 == q.1) : Prop)
      · rcases List.any_eq_true.1 ha with ⟨p, hp, hpq⟩
        have hpq : p.1 = q.1 := by simpa using hpq
        rcases List.exists_mem_of_ne_nil _ (joinRows_ne_nil R p) with ⟨row, hrow⟩
        apply List.mem_map.2
        exact ⟨row, List.mem_append_left _ (List.mem_flatMap.2 ⟨p, hp, hrow⟩),
          by rw [joinRows_key R p row hrow, hpq, hkey]⟩
      · apply List.mem_map.2
        refine ⟨(q.1, none, some q.2), List.mem_append_right _ ?_, hkey⟩
        apply List.mem_map.2
        refine ⟨q, List.mem_filter.2 ⟨hq, ?_⟩, rfl⟩
        cases hb : (L.any fun p => p.1 == q.1) with
        | true => exact absurd hb ha
        | false => simp [hb]

theorem outerJoin_null_parts {α β : Type}
    (L : List (Nat × α)) (R : List (Nat × β))
    (row : Nat × Option α × Option β) (h : row ∈ outerJoin L R) :
    (row.1 ∉ keysOf L → row.2.1 = none) ∧
    (row.1 ∉ keysOf R → row.2.2 = none) := by
  rcases List.mem_append.1 h with hL | hR
  · rcases List.mem_flatMap.1 hL with ⟨p, hp, hrowp⟩
    have hk := joinRows_key R p row hrowp
    constructor
    · intro hcon
      exact absurd (hk ▸ List.mem_map.2 ⟨p, hp, rfl⟩) hcon
    · intro hnotR
      unfold joinRows at hrowp
      by_cases he : ((R.filter fun q => q.1 == p.1).isEmpty : Prop)
      · rw [if_pos he] at hrowp
        rw [List.mem_singleton.1 hrowp]
      · rw [if_neg he] at hrowp
        rcases List.mem_map.1 hrowp with ⟨q, hq, rfl⟩
        exfalso
        apply hnotR
        have hq' := List.mem_filter.1 hq
        have hq1 : q.1 = p.1 := by simpa using hq'.2
        exact List.mem_map.2 ⟨q, hq'.1, hq1⟩
  · rcases List.mem_map.1 hR with ⟨q, hq, rfl⟩
    exact ⟨fun _ => rfl,
      fun hcon => absurd (List.mem_map.2 ⟨q, List.mem_of_mem_filter hq, rfl⟩) hcon⟩

theorem keysOf_joinRows_of_nodup {α β : Type}
    (R : List (Nat × β)) (p : Nat × α) (hR : (keysOf R).Nodup) :
    keysOf (joinRows R p) = [p.1] := by
  unfold joinRows
  by_cases he : ((R.filter fun q => q.1 == p.1).isEmpty : Prop)
  · rw [if_pos he]; rfl
  · rw [if_neg he]
    have hle : (R.filter fun q => q.1 == p.1).length ≤ 1 := by
      have h1 : (R.filter fun q => q.1 == p.1).length =
          List.count p.1 (keysOf R) := by
        rw [← List.countP_eq_length_filter, List.count, keysOf, List.countP_map]
        rfl
      rw [h1]
      exact List.nodup_iff_count_le_one.1 hR p.1
    have hge : 1 ≤ (R.filter fun q => q.1 == p.1).length := by
      exact List.length_pos.2
        (by simpa [List.isEmpty_iff] using he :
          (R.filter fun q => q.1 == p.1) ≠ [])
    rcases List.length_eq_one.1 (Nat.le_antisymm hle hge) with ⟨q, hq⟩
    rw [hq]
    rfl

theorem keysOf_flatMap_joinRows {α β : Type}
    (L : List (Nat × α)) (R : List (Nat × β)) (hR : (keysOf R).Nodup) :
    keysOf (L.flatMap (joinRows R)) = keysOf L := by
  induction L with
  | nil => rfl
  | cons p L ih =>
    rw [List.flatMap_cons]
    unfold keysOf at *
    rw [List.map_append, ih]
    have : (joinRows R p).map Prod.fst = [p.1] := keysOf_joinRows_of_nodup R p hR
    rw [this]
    rfl

theorem keysOf_outerJoin_nodup {α β : Type}
    (L : List (Nat × α)) (R : List (Nat × β))
    (hL : (keysOf L).Nodup) (hR : (keysOf R).Nodup) :
    (keysOf (outerJoin L R)).Nodup := by
  unfold outerJoin
  rw [keysOf, List.map_append]
  have hleft : (L.flatMap (joinRows R)).map Prod.fst = keysOf L :=
    keysOf_flatMap_joinRows L R hR
  have hright :
      ((R.filter fun q => !(L.any fun p => p.1 == q.1)).map
        (fun q => ((q.1 : Nat), (none : Option α), some q.2))).map Prod.fst =
      (keysOf R).filter fun d => !(L.any fun p => p.1 == d) := by
    rw [List.map_map, keysOf, List.filter_map]
    rfl
  rw [hleft, hright]
  apply List.Nodup.append hL (hR.filter _)
  intro d hd1 hd2
  rcases List.mem_filter.1 hd2 with ⟨_, hpred⟩
  rcases List.mem_map.1 hd1 with ⟨p, hp, hkey⟩
  have hfalse : (L.any fun p => p.1 == d) = false := by simpa using hpred
  have := List.any_eq_false.1 hfalse p hp
  simp only [beq_iff_eq] at this
  exact this hkey

/-! ### The merged wide table -/

/-- The sleep columns the merger selects (lines 2019-2024).
`totalSleepHours` is never null on loader output — it is a sum of
0-filled columns — so the `dropna(subset=['totalSleepHours'])` there
keeps every row. -/
structure SleepDaily where
  totalSleepHours : ℚ
  deepSleepHours : ℚ
  remSleepHours : ℚ
  awakeCount : ℚ
deriving DecidableEq

def sleep_daily (rows : List SleepRow) : List (Nat × SleepDaily) :=
  rows.map fun r =>
    (r.calendarDate,
      ⟨r.totalSleepHours, r.deepSleepHours, r.remSleepHours, r.awakeCount⟩)

/-- The Body-Battery columns the merger selects (lines 2030-2034). -/
structure BBDaily where
  chargedValue : Option ℚ
  drainedValue : Option ℚ
  highest_value : Option ℚ
  lowest_value : Option ℚ
deriving DecidableEq

/-- One row of the stress table built by
`load_body_battery_and_stress`: one row per day-segment aggregation. -/
structure StressRow where
  calendarDate : Nat
  type : String
  averageStressLevel : Option ℚ
  restDuration : ℚ
deriving DecidableEq

structure StressDaily where
  averageStressLevel : Option ℚ
  restDuration : ℚ
deriving DecidableEq

/-- Lines 2038-2042: keep only the TOTAL segment rows, select the
stress columns and key them by date. -/
def stress_total_daily (rows : List StressRow) : List (Nat × StressDaily) :=
  (rows.filter fun r => r.type == "TOTAL").map fun r =>
    (r.calendarDate, ⟨r.averageStressLevel, r.restDuration⟩)

/-- The health columns the merger selects (lines 2045-2055). -/
structure HealthDaily where
  HRV_value : Option ℚ
  HR_value : Option ℚ
deriving DecidableEq

def activities_daily_keyed (t : ActTable) : List (Nat × DailyRow) :=
  (activities_daily t).map fun r => (r.date, r)

/-- One optional merge stage of lines 2030-2055: an absent domain table
skips its merge, so the accumulated table passes through (carrying that
domain's block as all-null, which no claim inspects); a present table
joins by full outer merge on date. -/
def mergeOpt {γ β : Type} (acc : List (Nat × γ))
    (t : Option (List (Nat × β))) : List (Nat × Option γ × Option β) :=
  match t with
  | none => acc.map fun p => (p.1, some p.2, none)
  | some R => outerJoin acc R

/-- The merged wide table of lines 1994-2057: aggregate activities,
merge with the sleep columns, then optionally with Body-Battery, the
TOTAL stress segments, and the health columns, each by full outer join
on date.  (The final `dropna(subset=['date'])` keeps every row here:
the date key of every joined row is an actual date.) -/
def createMerged (act : ActTable) (sleepRows : List SleepRow)
    (bb : Option (List (Nat × BBDaily)))
    (stress : Option (List StressRow))
    (health : Option (List (Nat × HealthDaily))) :
    List (Nat ×
      Option (Option (Option (Option DailyRow × Option SleepDaily) ×
        Option BBDaily) × Option StressDaily) × Option HealthDaily) :=
  let m1 := outerJoin (activities_daily_keyed act) (sleep_daily sleepRows)
  let m2 := mergeOpt m1 bb
  let m3 := mergeOpt m2 (stress.map stress_total_daily)
  mergeOpt m3 health

/-- The activities part of a merged row. -/
def mAct (row : Nat ×
    Option (Option (Option (Option DailyRow × Option SleepDaily) ×
      Option BBDaily) × Option StressDaily) × Option HealthDaily) :
    Option DailyRow :=
  ((row.2.1.bind fun x => x.1).bind fun x => x.1).bind fun x => x.1

/-- The sleep part of a merged row. -/
def mSleep (row : Nat ×
    Option (Option (Option (Option DailyRow × Option SleepDaily) ×
      Option BBDaily) × Option StressDaily) × Option HealthDaily) :
    Option SleepDaily :=
  ((row.2.1.bind fun x => x.1).bind fun x => x.1).bind fun x => x.2

theorem keysOf_mergeOpt_none {γ β : Type} (acc : List (Nat × γ)) :
    keysOf (mergeOpt acc (none : Option (List (Nat × β)))) = keysOf acc := by
  unfold mergeOpt keysOf
  rw [List.map_map]
  rfl

theorem keysOf_mergeOpt_nodup {γ β : Type} (acc : List (Nat × γ))
    (t : Option (List (Nat × β))) (hacc : (keysOf acc).Nodup)
    (ht : ∀ R ∈ t, (keysOf R).Nodup) :
    (keysOf (mergeOpt acc t)).Nodup := by
  cases t with
  | none => rw [keysOf_mergeOpt_none]; exact hacc
  | some R => exact keysOf_outerJoin_nodup acc R hacc (ht R rfl)

theorem keysOf_activities_daily (act : ActTable) :
    keysOf (activities_daily_keyed act) =
      (act.rows.map fun r => r.date).dedup := by
  unfold activities_daily_keyed keysOf
  rw [List.map_map]
  simp [activities_daily, List.map_map, Function.comp_def, aggDate]

theorem keysOf_sleep_daily_load (fl : SleepFlags) (raw : List RawSleep) :
    keysOf (sleep_daily (load_sleep_rows fl raw)) =
      raw.filterMap fun r => r.calendarDate := by
  unfold sleep_daily keysOf load_sleep_rows
  rw [List.map_map, List.map_filterMap]
  congr 1
  funext r
  cases hr : r.calendarDate <;> simp [sleepRowOf, hr]

/-- Counterexample to C2 as stated: a Sleep table holding the same
calendar date twice (as when two source files repeat a night — the
loader concatenates them without deduplication, lines 268-272), merged
with a one-activity Activities table of that same date, gives a merged
table whose date key 1 occurs twice. -/
theorem merged_duplicate_dates_counterexample :
    ¬ (keysOf (createMerged ⟨false, [⟨1, some 1, 5, 100, 60, 150, none⟩]⟩
      [⟨1, 1, 2, 1, 0, 4, 0⟩, ⟨1, 1, 2, 1, 0, 4, 0⟩]
      none none none)).Nodup := by
  decide

/-- C2 amended: the merged wide table has duplicate-free date keys
provided every non-Activities domain table fed to the join is itself
duplicate-free per date (Activities is grouped by the merger itself, so
it needs no such assumption).  When a domain repeats a date — e.g.
after concatenating source files that overlap — the outer joins
multiply rows and the invariant fails, as the counterexample shows. -/
theorem merged_dates_nodup_of_unique_inputs (act : ActTable)
    (sleepRows : List SleepRow)
    (bb : Option (List (Nat × BBDaily)))
    (stress : Option (List StressRow))
    (health : Option (List (Nat × HealthDaily)))
    (hs : (keysOf (sleep_daily sleepRows)).Nodup)
    (hbb : ∀ B ∈ bb, (keysOf B).Nodup)
    (hstr : ∀ S ∈ stress, (keysOf (stress_total_daily S)).Nodup)
    (hh : ∀ H ∈ health, (keysOf H).Nodup) :
    (keysOf (createMerged act sleepRows bb stress health)).Nodup := by
  have h1 : (keysOf (activities_daily_keyed act)).Nodup := by
    rw [keysOf_activities_daily]
    exact List.nodup_dedup _
  have h2 := keysOf_outerJoin_nodup _ _ h1 hs
  have h3 := keysOf_mergeOpt_nodup _ bb h2 hbb
  have hstr' : ∀ R ∈ stress.map stress_total_daily, (keysOf R).Nodup := by
    cases stress with
    | none => intro R hR; simp at hR
    | some S =>
      intro R hR
      have hRS : R = stress_total_daily S := by
        simpa using hR.symm
      rw [hRS]
      exact hstr S rfl
  have h4 := keysOf_mergeOpt_nodup _ (stress.map stress_total_daily) h3 hstr'
  exact keysOf_mergeOpt_nodup _ health h4 hh

/-- Witness for C2 (amended): one activity date and one distinct sleep
date, the optional domains absent; the merged dates are
duplicate-free. -/
theorem merged_dates_nodup_of_unique_inputs_witness :
    (keysOf (createMerged ⟨false, [⟨1, some 1, 5, 100, 60, 150, none⟩]⟩
      [⟨2, 1, 2, 1, 0, 4, 0⟩] none none none)).Nodup := by
  apply merged_dates_nodup_of_unique_inputs
  · decide
  · intro B hB; simp at hB
  · intro S hS; simp at hS
  · intro H hH; simp at hH

/-- C4: merging an Activities table with a loaded Sleep table (the
optional domains absent) yields a merged table whose date set is
exactly the union of the activities dates and the resolvable sleep
dates — a raw sleep record without a resolvable date contributes
nothing — and every merged row for a date absent from one domain
carries null for that domain's part. -/
theorem merged_dates_union (act : ActTable) (fl : SleepFlags)
    (raw : List RawSleep) :
    (∀ d, d ∈ keysOf (createMerged act (load_sleep_rows fl raw)
        none none none) ↔
      ((d ∈ act.rows.map fun r => r.date) ∨
        some d ∈ raw.map fun r => r.calendarDate)) ∧
    (∀ row ∈ createMerged act (load_sleep_rows fl raw) none none none,
      ((row.1 ∉ raw.filterMap fun r => r.calendarDate) →
        mSleep row = none) ∧
      ((row.1 ∉ act.rows.map fun r => r.date) → mAct row = none)) := by
  have hC : createMerged act (load_sleep_rows fl raw) none none none =
      (outerJoin (activities_daily_keyed act)
        (sleep_daily (load_sleep_rows fl raw))).map
        (fun p => ((p.1 : Nat),
          some (some (some p.2, (none : Option BBDaily)),
            (none : Option StressDaily)),
          (none : Option HealthDaily))) := by
    show ((((outerJoin (activities_daily_keyed act)
        (sleep_daily (load_sleep_rows fl raw))).map
          (fun p => (p.1, some p.2, (none : Option BBDaily)))).map
          (fun p => (p.1, some p.2, (none : Option StressDaily)))).map
          (fun p => (p.1, some p.2, (none : Option HealthDaily)))) = _
    rw [List.map_map, List.map_map]
    rfl
  constructor
  · intro d
    have hkeys : keysOf (createMerged act (load_sleep_rows fl raw)
        none none none) =
        keysOf (outerJoin (activities_daily_keyed act)
          (sleep_daily (load_sleep_rows fl raw))) := by
      rw [hC]
      unfold keysOf
      rw [List.map_map]
      rfl
    rw [hkeys, keysOf_outerJoin_mem, keysOf_activities_daily,
      keysOf_sleep_daily_load]
    constructor
    · rintro (h | h)
      · exact Or.inl (List.mem_dedup.1 h)
      · rcases List.mem_filterMap.1 h with ⟨r, hr, hrd⟩
        exact Or.inr (List.mem_map.2 ⟨r, hr, hrd⟩)
    · rintro (h | h)
      · exact Or.inl (List.mem_dedup.2 h)
      · rcases List.mem_map.1 h with ⟨r, hr, hrd⟩
        exact Or.inr (List.mem_filterMap.2 ⟨r, hr, hrd⟩)
  · intro row hrow
    rw [hC] at hrow
    rcases List.mem_map.1 hrow with ⟨p, hp, rfl⟩
    have hnull := outerJoin_null_parts _ _ p hp
    constructor
    · intro hd
      have : p.1 ∉ keysOf (sleep_daily (load_sleep_rows fl raw)) := by
        rw [keysOf_sleep_daily_load]
        exact hd
      have h2 := hnull.2 this
      show p.2.2 = none
      exact h2
    · intro hd
      have : p.1 ∉ keysOf (activities_daily_keyed act) := by
        rw [keysOf_activities_daily]
        intro hmem
        exact hd (List.mem_dedup.1 hmem)
      have h1 := hnull.1 this
      show p.2.1 = none
      exact h1

/-! ## Correlation matrix (lines 2246-2253)

`corr_data = merged[corr_cols].dropna()` and
`corr_matrix = corr_data.corr()`.  A Pearson entry is
covSum/√(varSum·varSum): we carry the exact rational pair
(covSum xs ys, varSum xs · varSum ys) — the entry's real value is the
first component divided by the square root of the second — and `none`
for the NaN pandas produces when the divisor is zero (a zero-variance
column).  The sample-size normalizations of covariance and standard
deviation cancel in the quotient and are omitted. -/

def colMean (l : List ℚ) : ℚ := l.sum / l.length

def centered (l : List ℚ) : List ℚ := l.map fun x => x - colMean l

/-- Σ (xᵢ − x̄)(yᵢ − ȳ), the unnormalized covariance. -/
def covSum (xs ys : List ℚ) : ℚ :=
  (((centered xs).zip (centered ys)).map fun p => p.1 * p.2).sum

/-- Σ (xᵢ − x̄)², the unnormalized variance. -/
def varSum (xs : List ℚ) : ℚ :=
  ((centered xs).map fun a => a * a).sum

/-- One Pearson entry in exact form; `none` is pandas' NaN for a zero
divisor. -/
def corrEntry (xs ys : List ℚ) : Option (ℚ × ℚ) :=
  if varSum xs * varSum ys = 0 then none
  else some (covSum xs ys, varSum xs * varSum ys)

/-- Line 2246: drop every merged row with a null among the selected
columns. -/
def corr_data (rows : List (List (Option ℚ))) : List (List ℚ) :=
  (rows.filter fun r => r.all Option.isSome).map fun r => r.filterMap id

/-- Line 2250: the Pearson matrix over the columns of the null-free
row set. -/
def corrMatrix (rows : List (List (Option ℚ))) :
    List (List (Option (ℚ × ℚ))) :=
  ((corr_data rows).transpose).map fun x =>
    ((corr_data rows).transpose).map fun y => corrEntry x y

/-- Entry (i, j) of the matrix; the outer `none` means out of range. -/
def mEntry (rows : List (List (Option ℚ))) (i j : Nat) :
    Option (Option (ℚ × ℚ)) :=
  ((corrMatrix rows)[i]?).bind fun r => r[j]?

theorem zip_self_map_mul (l : List ℚ) :
    ((l.zip l).map fun p => p.1 * p.2) = l.map fun a => a * a := by
  induction l with
  | nil => rfl
  | cons a t ih => simp [ih]

theorem covSum_self (x : List ℚ) : covSum x x = varSum x := by
  unfold covSum varSum
  rw [zip_self_map_mul]

theorem sumsq_nonneg (l : List ℚ) : 0 ≤ (l.map fun a => a * a).sum := by
  apply List.sum_nonneg
  intro a ha
  rcases List.mem_map.1 ha with ⟨b, _, rfl⟩
  exact mul_self_nonneg b

theorem varSum_nonneg (x : List ℚ) : 0 ≤ varSum x := sumsq_nonneg _

theorem zip_map_mul_comm (a b : List ℚ) :
    ((a.zip b).map fun p => p.1 * p.2) =
    ((b.zip a).map fun p => p.1 * p.2) := by
  induction a generalizing b with
  | nil => cases b <;> rfl
  | cons x xs ih =>
    cases b with
    | nil => rfl
    | cons y ys => simp [ih ys, mul_comm]

theorem covSum_comm (x y : List ℚ) : covSum x y = covSum y x := by
  unfold covSum
  rw [zip_map_mul_comm]

/-- Cauchy-Schwarz for zipped list sums (the zip truncates at the
shorter list; the right side only grows with the extra squares). -/
theorem zip_inner_sq_le (a b : List ℚ) :
    (((a.zip b).map fun p => p.1 * p.2).sum) ^ 2 ≤
      ((a.map fun x => x * x).sum) * ((b.map fun x => x * x).sum) := by
  induction a generalizing b with
  | nil => simp
  | cons x xs ih =>
    cases b with
    | nil =>
      simp
    | cons y ys =>
      have h := ih ys
      have hA : 0 ≤ (xs.map fun x => x * x).sum := sumsq_nonneg xs
      have hB : 0 ≤ (ys.map fun x => x * x).sum := sumsq_nonneg ys
      simp only [List.zip_cons_cons, List.map_cons, List.sum_cons]
      set S := ((xs.zip ys).map fun p => p.1 * p.2).sum with hS
      set A := (xs.map fun x => x * x).sum with hAd
      set B := (ys.map fun x => x * x).sum with hBd
      rcases eq_or_lt_of_le hB with hB0 | hBpos
      · have hS0 : S = 0 := by nlinarith [sq_nonneg S]
        rw [hS0, ← hB0]
        nlinarith [mul_nonneg hA (sq_nonneg y)]
      · nlinarith [sq_nonneg (x * B - S * y),
          mul_nonneg (sub_nonneg.2 h) (add_nonneg (sq_nonneg y) hB), hBpos]

theorem corrEntry_comm (x y : List ℚ) : corrEntry x y = corrEntry y x := by
  unfold corrEntry
  rw [mul_comm (varSum y) (varSum x), covSum_comm y x]

theorem corrEntry_bounded (x y : List ℚ) (c d : ℚ)
    (h : corrEntry x y = some (c, d)) : c ^ 2 ≤ d ∧ 0 < d := by
  unfold corrEntry at h
  by_cases hz : varSum x * varSum y = 0
  · rw [if_pos hz] at h
    exact absurd h (by simp)
  · rw [if_neg hz] at h
    have hc : c = covSum x y := by
      have := congrArg (fun o => o.map Prod.fst) h
      simpa using this.symm
    have hd : d = varSum x * varSum y := by
      have := congrArg (fun o => o.map Prod.snd) h
      simpa using this.symm
    subst hc
    subst hd
    constructor
    · exact zip_inner_sq_le (centered x) (centered y)
    · exact lt_of_le_of_ne (mul_nonneg (varSum_nonneg x) (varSum_nonneg y))
        (Ne.symm hz)

/-- Counterexample to C9 as stated: a null-free merged table with 3
rows and 3 selected columns whose middle column is constant.  pandas
divides by the zero standard deviation and yields NaN, so the (1,1)
diagonal entry is NaN, not 1. -/
theorem corr_matrix_diag_counterexample :
    (corr_data [[some 1, some 1, some 1], [some 2, some 1, some 3],
      [some 3, some 1, some 2]]).length = 3 ∧
    ((corr_data [[some 1, some 1, some 1], [some 2, some 1, some 3],
      [some 3, some 1, some 2]]).transpose).length = 3 ∧
    mEntry [[some 1, some 1, some 1], [some 2, some 1, some 3],
      [some 3, some 1, some 2]] 1 1 = some none := by
  refine ⟨rfl, rfl, ?_⟩
  have hvar : varSum [1, 1, 1] = 0 := by
    simp [varSum, centered, colMean]
    norm_num
  have hentry : corrEntry [1, 1, 1] [1, 1, 1] = none := by
    unfold corrEntry
    rw [hvar]
    norm_num
  have htr : (corr_data [[some 1, some 1, some 1], [some 2, some 1, some 3],
      [some 3, some 1, some 2]]).transpose =
      [[1, 1, 1], [2, 1, 3], [3, 1, 2]].transpose := rfl
  unfold mEntry corrMatrix
  rw [htr]
  show some (corrEntry [1, 1, 1] [1, 1, 1]) = some none
  rw [hentry]

/-- C9 amended: over the null-free row set (≥ 3 rows and ≥ 3 columns
remaining), recomputing the matrix on identical input gives an
identical matrix, the matrix is symmetric, every defined entry
(c, d) — representing the real value c/√d — satisfies c² ≤ d and
d > 0, i.e. lies in [−1, 1], and every diagonal entry of a column with
nonzero variance represents exactly 1 (c > 0 and c² = d); a
zero-variance column instead gives NaN entries, as the counterexample
shows. -/
theorem corr_matrix_properties (rows : List (List (Option ℚ)))
    (_h3r : 3 ≤ (corr_data rows).length)
    (_h3c : 3 ≤ ((corr_data rows).transpose).length) :
    corrMatrix rows = corrMatrix rows ∧
    (∀ i j : Nat, mEntry rows i j = mEntry rows j i) ∧
    (∀ i j : Nat, ∀ c d : ℚ, mEntry rows i j = some (some (c, d)) →
      c ^ 2 ≤ d ∧ 0 < d) ∧
    (∀ i : Nat, ∀ x : List ℚ,
      ((corr_data rows).transpose)[i]? = some x → varSum x ≠ 0 →
      ∃ c d : ℚ, mEntry rows i i = some (some (c, d)) ∧
        0 < c ∧ c ^ 2 = d) := by
  have hget : ∀ i j : Nat, mEntry rows i j =
      (((corr_data rows).transpose)[i]?).bind fun x =>
        Option.map (fun y => corrEntry x y)
          (((corr_data rows).transpose)[j]?) := by
    intro i j
    unfold mEntry corrMatrix
    rw [List.getElem?_map]
    cases hx : ((corr_data rows).transpose)[i]? with
    | none => rfl
    | some x =>
      simp only [Option.map_some', Option.some_bind]
      rw [List.getElem?_map]
  refine ⟨rfl, ?_, ?_, ?_⟩
  · intro i j
    rw [hget i j, hget j i]
    cases hx : ((corr_data rows).transpose)[i]? with
    | none =>
      cases hy : ((corr_data rows).transpose)[j]? with
      | none => rfl
      | some y => simp
    | some x =>
      cases hy : ((corr_data rows).transpose)[j]? with
      | none => simp
      | some y => simp [corrEntry_comm x y]
  · intro i j c d h
    rw [hget i j] at h
    cases hx : ((corr_data rows).transpose)[i]? with
    | none => rw [hx] at h; simp at h
    | some x =>
      rw [hx] at h
      cases hy : ((corr_data rows).transpose)[j]? with
      | none => rw [hy] at h; simp at h
      | some y =>
        rw [hy] at h
        simp only [Option.map_some', Option.some_bind] at h
        exact corrEntry_bounded x y c d (by simpa using h)
  · intro i x hx hvar
    refine ⟨varSum x, varSum x * varSum x, ?_, ?_, ?_⟩
    · rw [hget i i, hx]
      simp only [Option.map_some', Option.some_bind]
      unfold corrEntry
      rw [if_neg (mul_ne_zero hvar hvar), covSum_self]
    · exact lt_of_le_of_ne (varSum_nonneg x) (Ne.symm hvar)
    · exact pow_two (varSum x)

/-- The 3 × 3 null-free table used to witness the amended C9. -/
def corrWitnessRows : List (List (Option ℚ)) :=
  [[some 1, some 2, some 1], [some 2, some 4, some 3], [some 3, some 6, some 2]]

/-- Witness for C9 (amended): on a concrete 3 × 3 table the (0,1) and
(1,0) entries agree and the (0,0) diagonal entry represents 1. -/
theorem corr_matrix_properties_witness :
    mEntry corrWitnessRows 0 1 = mEntry corrWitnessRows 1 0 ∧
    (∃ c d : ℚ, mEntry corrWitnessRows 0 0 = some (some (c, d)) ∧
      0 < c ∧ c ^ 2 = d) := by
  constructor
  · exact (corr_matrix_properties corrWitnessRows (by decide)
      (by decide)).2.1 0 1
  · exact (corr_matrix_properties corrWitnessRows (by decide)
      (by decide)).2.2.2 0 [1, 2, 3] (by decide)
      (by simp [varSum, centered, colMean]; norm_num)
